import Mathlib

/-!
Verification of the TaskFlow Agent workflow client and its sequential
execution model, shallowly embedded from the repository's sources.

The embedded pieces are:
* the workflow editor node list operations from
  `frontend/src/app/workflows/[id]/edit/page.tsx` (`addNode`, `removeNode`,
  `updateNodeConfig`, `handleSave`'s edge derivation);
* the workflow-creation template table from the create-workflow page
  (`getTemplateNodes`, `handleSubmit`'s edge derivation);
* the single-agent execution handler from `AgentInterface`
  (`handleExecute` with its demo-mode fallback);
* the backend sequential node executor and the execution status lifecycle,
  which are not part of the visible sources and are modelled from the spec.
-/

set_option autoImplicit false

namespace TaskFlow

/-- Configuration objects are JavaScript objects with string values; we model
them as ordered key/value lists, which preserves object-spread semantics. -/
abbrev Config := List (String × String)

/-- Reads a field of a config object: the value at the first matching key. -/
def getField (cfg : Config) (f : String) : Option String :=
  (cfg.find? (fun kv => kv.1 = f)).map (fun kv => kv.2)

/-- Writes a field of a config object with JavaScript spread-with-override
semantics (`\x7b...cfg, [field]: value\x7d`): an existing key is overwritten in
place, a new key is appended at the end. -/
def setField (cfg : Config) (f v : String) : Config :=
  if cfg.any (fun kv => kv.1 = f) then
    cfg.map (fun kv => if kv.1 = f then (kv.1, v) else kv)
  else
    cfg ++ [(f, v)]

/-- A workflow node as built by the editor and the creation templates:
`\x7b id, type, data: \x7b config: \x7b prompt, input \x7d \x7d \x7d`.
The `data.config` object is flattened into `config`. -/
structure WNode where
  id : String
  type : String
  config : Config
deriving Repr, DecidableEq

/-- Builds the config literal `\x7b prompt: p, input: i \x7d` used by
`addNode` and every template node. -/
def mkConfig (p i : String) : Config :=
  [("prompt", p), ("input", i)]

/-- A derived sequential edge `\x7b id, source, target \x7d`. -/
structure Edge where
  id : String
  source : String
  target : String
deriving Repr, DecidableEq

/-- Fallback node for out-of-range indexed access (never reached on the
indices the edge derivation uses). -/
def defaultWNode : WNode :=
  { id := "", type := "", config := [] }

/-- Edge derivation shared by `handleSave` and `handleSubmit`:
`nodes.slice(0, -1).map((node, index) => (\x7b id: edge_\x7bindex+1\x7d,
source: node.id, target: nodes[index+1].id \x7d))`.  `slice(0, -1)` has
length `nodes.length - 1` (and is empty on the empty list), and the callback
at index `i` reads `nodes[i]` and `nodes[i+1]`. -/
def deriveEdges (nodes : List WNode) : List Edge :=
  (List.range (nodes.length - 1)).map (fun i =>
    { id := "edge_" ++ toString (i + 1)
    , source := (nodes.getD i defaultWNode).id
    , target := (nodes.getD (i + 1) defaultWNode).id })

theorem deriveEdges_length (nodes : List WNode) :
    (deriveEdges nodes).length = nodes.length - 1 := by
  simp [deriveEdges]

/-- C1: for every node list from which a workflow is saved or created, the
derived edge list has exactly `nodes.length - 1` edges (natural-number
subtraction: the empty list yields no edges), and the edge at each position
`i` has source the id of the node at position `i` and target the id of the
node at position `i + 1`. -/
theorem spec_c1 (nodes : List WNode) :
    (deriveEdges nodes).length = nodes.length - 1 ∧
    ∀ i : ℕ, i < nodes.length - 1 →
      ((deriveEdges nodes)[i]?).map Edge.source = (nodes[i]?).map WNode.id ∧
      ((deriveEdges nodes)[i]?).map Edge.target = (nodes[i + 1]?).map WNode.id := by
  refine ⟨deriveEdges_length nodes, ?_⟩
  intro i hi
  have h1 : i < nodes.length := lt_of_lt_of_le hi (Nat.sub_le _ _)
  have h2 : i + 1 < nodes.length := Nat.add_lt_of_lt_sub hi
  have hx : nodes[i]? = some nodes[i] := List.getElem?_eq_getElem h1
  have hy : nodes[i + 1]? = some nodes[i + 1] := List.getElem?_eq_getElem h2
  constructor <;>
    simp [deriveEdges, List.getElem?_map, List.getElem?_range hi, hx, hy]

/-- Witness for C1 at a concrete three-node list and position 1. -/
theorem spec_c1_witness :
    let ns : List WNode :=
      [ { id := "node_1", type := "extractor", config := mkConfig "p1" "" }
      , { id := "node_2", type := "analyzer", config := mkConfig "p2" "x" }
      , { id := "node_3", type := "writer", config := mkConfig "p3" "y" } ]
    (deriveEdges ns).length = ns.length - 1 ∧
    ((deriveEdges ns)[1]?).map Edge.source = (ns[1]?).map WNode.id ∧
    ((deriveEdges ns)[1]?).map Edge.target = (ns[2]?).map WNode.id := by
  intro ns
  have h := spec_c1 ns
  exact ⟨h.1, (h.2 1 (by decide)).1, (h.2 1 (by decide)).2⟩

/-- Placeholder string `\x7b\x7bnode_k.output\x7d\x7d` referencing node `k`. -/
def placeholder (k : ℕ) : String :=
  "\x7b\x7bnode_" ++ toString k ++ ".output\x7d\x7d"

/-- Editor operation `addNode(type)`: appends a node with id
`node_\x7blength+1\x7d` whose config has an empty prompt and, when the list is
non-empty, input `\x7b\x7bnode_\x7blength\x7d.output\x7d\x7d`. -/
def addNode (t : String) (nodes : List WNode) : List WNode :=
  nodes ++
    [{ id := "node_" ++ toString (nodes.length + 1)
     , type := t
     , config := mkConfig "" (if nodes.length > 0 then placeholder nodes.length else "") }]

/-- Editor operation `removeNode(nodeId)`: keeps the nodes whose id differs. -/
def removeNode (nid : String) (nodes : List WNode) : List WNode :=
  nodes.filter (fun n => n.id != nid)

/-- Editor operation `updateNodeConfig(nodeId, field, value)`: maps over the
nodes, rebuilding the matching node with the config field overridden. -/
def updateNodeConfig (nid field value : String) (nodes : List WNode) : List WNode :=
  nodes.map (fun n =>
    if n.id = nid then { n with config := setField n.config field value } else n)

/-- A node list on which the C2 claim fails: a single node whose id is
`node_2`, as produced for example by `addNode, addNode, removeNode "node_1"`. -/
def c2CexNodes : List WNode :=
  [{ id := "node_2", type := "extractor", config := mkConfig "" "" }]

/-- C2 counterexample: the list `[node_2]` has distinct ids, yet `addNode`
on it appends a node whose id is again `node_2` (the list length is 1, so the
fresh id is `node_\x7b1+1\x7d`), producing a duplicate id. -/
theorem spec_c2_counterexample :
    (c2CexNodes.map WNode.id).Nodup ∧
    ¬ ((addNode "writer" c2CexNodes).map WNode.id).Nodup := by
  constructor
  · decide
  · decide

theorem map_id_updateNodeConfig (nodes : List WNode) (nid field value : String) :
    (updateNodeConfig nid field value nodes).map WNode.id = nodes.map WNode.id := by
  unfold updateNodeConfig
  rw [List.map_map]
  apply List.map_congr_left
  intro n _
  by_cases h : n.id = nid <;> simp [h]

/-- C2 (amended): for every node list with distinct ids, `removeNode` and
`updateNodeConfig` again yield distinct ids, and `addNode` yields distinct
ids provided no existing node already carries the freshly generated id
`node_\x7blength+1\x7d` (which always holds for the canonical lists
`node_1 .. node_n` built by `addNode` alone, but can fail after a
`removeNode`). -/
theorem spec_c2_amended (nodes : List WNode) (nid field value t : String)
    (h : (nodes.map WNode.id).Nodup) :
    ((removeNode nid nodes).map WNode.id).Nodup ∧
    ((updateNodeConfig nid field value nodes).map WNode.id).Nodup ∧
    (("node_" ++ toString (nodes.length + 1)) ∉ nodes.map WNode.id →
      ((addNode t nodes).map WNode.id).Nodup) := by
  refine ⟨?_, ?_, ?_⟩
  · exact h.sublist ((List.filter_sublist nodes).map WNode.id)
  · rw [map_id_updateNodeConfig]; exact h
  · intro hfresh
    simp only [addNode, List.map_append, List.map_cons, List.map_nil]
    rw [List.nodup_append]
    exact ⟨h, List.nodup_singleton _, by simpa using hfresh⟩

/-- Witness for the amended C2 at the canonical one-node list. -/
theorem spec_c2_amended_witness :
    let ns : List WNode := [{ id := "node_1", type := "extractor", config := mkConfig "" "" }]
    ((removeNode "node_1" ns).map WNode.id).Nodup ∧
    ((updateNodeConfig "node_1" "prompt" "p" ns).map WNode.id).Nodup ∧
    ((addNode "writer" ns).map WNode.id).Nodup := by
  intro ns
  have h := spec_c2_amended ns "node_1" "prompt" "p" "writer" (by decide)
  exact ⟨h.1, h.2.1, h.2.2 (by decide)⟩

/-- Folds a sequence of `addNode` clicks (one per listed type) over a node
list, exactly as repeated `addNode` invocations update the editor state. -/
def applyAdds (types : List String) (nodes : List WNode) : List WNode :=
  types.foldl (fun ns t => addNode t ns) nodes

/-- Ids `node_1 .. node_n` in order. -/
def chainIds (n : ℕ) : List String :=
  (List.range n).map (fun i => "node_" ++ toString (i + 1))

/-- Expected `config.input` values of a canonical chain of `n` nodes: empty
for the first node, `\x7b\x7bnode_\x7bi-1\x7d.output\x7d\x7d` for the node at
1-indexed position `i > 1`. -/
def chainInputs : ℕ → List (Option String)
  | 0 => []
  | n + 1 => some "" :: (List.range n).map (fun i => some (placeholder (i + 1)))

theorem getField_mkConfig_input (p i : String) :
    getField (mkConfig p i) "input" = some i := by
  simp [getField, mkConfig, List.find?]

theorem getField_mkConfig_prompt (p i : String) :
    getField (mkConfig p i) "prompt" = some p := by
  simp [getField, mkConfig, List.find?]

theorem chainIds_succ (n : ℕ) :
    chainIds (n + 1) = chainIds n ++ ["node_" ++ toString (n + 1)] := by
  simp [chainIds, List.range_succ]

theorem chainInputs_succ (n : ℕ) :
    chainInputs (n + 1) =
      chainInputs n ++ [if 0 < n then some (placeholder n) else some ""] := by
  cases n with
  | zero => simp [chainInputs]
  | succ m => simp [chainInputs, List.range_succ]

theorem applyAdds_canonical (types : List String) :
    ∀ ns : List WNode,
      ns.map WNode.id = chainIds ns.length →
      ns.map (fun n => getField n.config "input") = chainInputs ns.length →
      (applyAdds types ns).length = ns.length + types.length ∧
      (applyAdds types ns).map WNode.id = chainIds (ns.length + types.length) ∧
      (applyAdds types ns).map (fun n => getField n.config "input") =
        chainInputs (ns.length + types.length) := by
  induction types with
  | nil =>
    intro ns hid hin
    simpa [applyAdds] using ⟨hid, hin⟩
  | cons t ts ih =>
    intro ns hid hin
    have hstep : applyAdds (t :: ts) ns = applyAdds ts (addNode t ns) := by
      simp [applyAdds]
    have hlen : (addNode t ns).length = ns.length + 1 := by
      simp [addNode]
    have hid' : (addNode t ns).map WNode.id = chainIds (addNode t ns).length := by
      rw [hlen, chainIds_succ]
      simp [addNode, hid]
    have hin' : (addNode t ns).map (fun n => getField n.config "input") =
        chainInputs (addNode t ns).length := by
      rw [hlen, chainInputs_succ]
      simp only [addNode, List.map_append, List.map_cons, List.map_nil,
        getField_mkConfig_input, hin]
      congr 1
      by_cases h : 0 < ns.length <;> simp [h, Nat.pos_iff_ne_zero]
    have h := ih (addNode t ns) hid' hin'
    rw [hstep]
    simp only [List.length_cons]
    refine ⟨?_, ?_, ?_⟩
    · rw [h.1, hlen]; omega
    · rw [h.2.1, hlen]; congr 1; omega
    · rw [h.2.2, hlen]; congr 1; omega

/-- C8: starting from the empty node list, any sequence of `n` `addNode`
calls (with arbitrary node types) yields nodes with ids `node_1 .. node_n`
in order, whose first node has empty `config.input` and whose node at every
later 1-indexed position `i` has `config.input` exactly
`\x7b\x7bnode_\x7bi-1\x7d.output\x7d\x7d`. -/
theorem spec_c8 (types : List String) :
    (applyAdds types []).length = types.length ∧
    (applyAdds types []).map WNode.id = chainIds types.length ∧
    (applyAdds types []).map (fun n => getField n.config "input") =
      chainInputs types.length := by
  have h := applyAdds_canonical types [] (by simp [chainIds]) (by simp [chainInputs])
  simpa using h

theorem getField_cons (kv : String × String) (rest : Config) (g : String) :
    getField (kv :: rest) g = if kv.1 = g then some kv.2 else getField rest g := by
  by_cases h : kv.1 = g <;> simp [getField, List.find?, h]

theorem getField_append_of_none (l₁ l₂ : Config) (g : String)
    (h : getField l₁ g = none) : getField (l₁ ++ l₂) g = getField l₂ g := by
  induction l₁ with
  | nil => simp
  | cons kv rest ih =>
    rw [getField_cons] at h
    rw [List.cons_append, getField_cons]
    by_cases hk : kv.1 = g
    · rw [if_pos hk] at h; exact absurd h (by simp)
    · rw [if_neg hk] at h
      rw [if_neg hk]
      exact ih h

theorem getField_append_of_some (l₁ l₂ : Config) (g : String) (x : String)
    (h : getField l₁ g = some x) : getField (l₁ ++ l₂) g = some x := by
  induction l₁ with
  | nil => simp [getField] at h
  | cons kv rest ih =>
    rw [getField_cons] at h
    rw [List.cons_append, getField_cons]
    by_cases hk : kv.1 = g
    · rw [if_pos hk] at h; rw [if_pos hk]; exact h
    · rw [if_neg hk] at h
      rw [if_neg hk]
      exact ih h

theorem getField_eq_none (g : String) :
    ∀ cfg : Config, (∀ kv ∈ cfg, kv.1 ≠ g) → getField cfg g = none := by
  intro cfg
  induction cfg with
  | nil => intro _; simp [getField]
  | cons kv rest ih =>
    intro h
    rw [getField_cons, if_neg (h kv (by simp))]
    exact ih (fun kv' hkv' => h kv' (by simp [hkv']))

theorem getField_mapUpdate_same (f v : String) :
    ∀ cfg : Config, cfg.any (fun kv => kv.1 = f) = true →
      getField (cfg.map (fun kv => if kv.1 = f then (kv.1, v) else kv)) f = some v := by
  intro cfg
  induction cfg with
  | nil => intro h; simp at h
  | cons kv rest ih =>
    intro h
    rw [List.map_cons, getField_cons]
    by_cases hk : kv.1 = f
    · simp [hk]
    · have hrest : rest.any (fun kv => kv.1 = f) = true := by
        simpa [List.any_cons, hk] using h
      simpa [hk] using ih hrest

theorem getField_mapUpdate_other (f v g : String) (hg : g ≠ f) :
    ∀ cfg : Config,
      getField (cfg.map (fun kv => if kv.1 = f then (kv.1, v) else kv)) g =
        getField cfg g := by
  intro cfg
  induction cfg with
  | nil => simp
  | cons kv rest ih =>
    rw [List.map_cons, getField_cons, getField_cons]
    have hfg : f ≠ g := fun hc => hg hc.symm
    by_cases hk : kv.1 = f
    · have hkg : kv.1 ≠ g := fun h => hg (h ▸ hk)
      simp [hk, hkg, hfg, ih]
    · simp [hk, ih]

theorem getField_setField_same (cfg : Config) (f v : String) :
    getField (setField cfg f v) f = some v := by
  unfold setField
  by_cases h : cfg.any (fun kv => kv.1 = f) = true
  · rw [if_pos h]
    exact getField_mapUpdate_same f v cfg h
  · rw [if_neg h]
    have habs : ∀ kv ∈ cfg, kv.1 ≠ f := by
      intro kv hkv hc
      exact h (List.any_eq_true.mpr ⟨kv, hkv, by simpa using hc⟩)
    rw [getField_append_of_none _ _ _ (getField_eq_none f cfg habs)]
    simp [getField_cons]

theorem getField_setField_other (cfg : Config) (f v g : String) (hg : g ≠ f) :
    getField (setField cfg f v) g = getField cfg g := by
  unfold setField
  by_cases h : cfg.any (fun kv => kv.1 = f) = true
  · rw [if_pos h]
    exact getField_mapUpdate_other f v g hg cfg
  · rw [if_neg h]
    cases hfind : getField cfg g with
    | none =>
      rw [getField_append_of_none _ _ _ hfind]
      have hfg : f ≠ g := fun hc => hg hc.symm
      simp [getField_cons, hfg, getField]
    | some x =>
      exact getField_append_of_some _ _ _ _ hfind

/-- C9: `updateNodeConfig` preserves the list's length and order, leaves
every node whose id differs from the given id entirely unchanged, and for
each node with the given id changes only the named config field (set to the
given value) while preserving that node's id, type, and every other config
field. -/
theorem spec_c9 (nodes : List WNode) (nid field value : String) :
    (updateNodeConfig nid field value nodes).length = nodes.length ∧
    ∀ i : ℕ, ∀ nd : WNode, nodes[i]? = some nd →
      (nd.id ≠ nid → (updateNodeConfig nid field value nodes)[i]? = some nd) ∧
      (nd.id = nid →
        ∃ nd', (updateNodeConfig nid field value nodes)[i]? = some nd' ∧
          nd'.id = nd.id ∧ nd'.type = nd.type ∧
          getField nd'.config field = some value ∧
          ∀ f : String, f ≠ field → getField nd'.config f = getField nd.config f) := by
  constructor
  · simp [updateNodeConfig]
  · intro i nd hnd
    constructor
    · intro hne
      simp [updateNodeConfig, List.getElem?_map, hnd, hne]
    · intro heq
      refine ⟨{ nd with config := setField nd.config field value }, ?_, rfl, rfl, ?_, ?_⟩
      · simp [updateNodeConfig, List.getElem?_map, hnd, heq]
      · exact getField_setField_same nd.config field value
      · intro f hf
        exact getField_setField_other nd.config field value f hf

/-- Witness for C9 at a concrete one-node list, updating the `input` field. -/
theorem spec_c9_witness :
    let ns : List WNode := [{ id := "node_1", type := "extractor", config := mkConfig "p" "x" }]
    (updateNodeConfig "node_1" "input" "y" ns).length = ns.length ∧
    ∃ nd', (updateNodeConfig "node_1" "input" "y" ns)[0]? = some nd' ∧
      nd'.id = "node_1" ∧ nd'.type = "extractor" ∧
      getField nd'.config "input" = some "y" ∧
      ∀ f : String, f ≠ "input" → getField nd'.config f = getField (mkConfig "p" "x") f := by
  intro ns
  have h := spec_c9 ns "node_1" "input" "y"
  have h0 := (h.2 0 { id := "node_1", type := "extractor", config := mkConfig "p" "x" } rfl).2 rfl
  exact ⟨h.1, h0⟩

/-- Template `email_summarizer` from `getTemplateNodes` (the edit page's
`setupEmailSummarizer` builds the identical list). -/
def emailSummarizerNodes : List WNode :=
  [ { id := "node_1", type := "extractor"
    , config := mkConfig "Extract the following from the email: sender, subject, date, main topic, key points, and any action items or requests." "" }
  , { id := "node_2", type := "analyzer"
    , config := mkConfig "Analyze the extracted email information and determine: 1) Priority level (High/Medium/Low), 2) Category (Question, Request, Information, Complaint, etc.), 3) Sentiment (Positive/Neutral/Negative)" "\x7b\x7bnode_1.output\x7d\x7d" }
  , { id := "node_3", type := "writer"
    , config := mkConfig "Generate a professional 2-3 sentence summary of the email that includes the main point, any action required, and the priority level." "\x7b\x7bnode_2.output\x7d\x7d" } ]

/-- Template `content_generator` from `getTemplateNodes`. -/
def contentGeneratorNodes : List WNode :=
  [ { id := "node_1", type := "researcher"
    , config := mkConfig "Research the given topic and gather key information, facts, and relevant details." "" }
  , { id := "node_2", type := "writer"
    , config := mkConfig "Write a comprehensive, engaging article or blog post based on the research. Include an introduction, main points, and conclusion." "\x7b\x7bnode_1.output\x7d\x7d" } ]

/-- Template `data_analyzer` from `getTemplateNodes`. -/
def dataAnalyzerNodes : List WNode :=
  [ { id := "node_1", type := "extractor"
    , config := mkConfig "Extract and structure the data from the provided text or document." "" }
  , { id := "node_2", type := "analyzer"
    , config := mkConfig "Analyze the extracted data to identify patterns, trends, anomalies, and key insights." "\x7b\x7bnode_1.output\x7d\x7d" }
  , { id := "node_3", type := "writer"
    , config := mkConfig "Create a clear, actionable report summarizing the analysis findings with recommendations." "\x7b\x7bnode_2.output\x7d\x7d" } ]

/-- Template `customer_support` from `getTemplateNodes`. -/
def customerSupportNodes : List WNode :=
  [ { id := "node_1", type := "analyzer"
    , config := mkConfig "Analyze the customer inquiry to understand: 1) Issue type, 2) Urgency level, 3) Customer sentiment, 4) Required department/expertise." "" }
  , { id := "node_2", type := "writer"
    , config := mkConfig "Generate a professional, empathetic response addressing the customer\x27s concern with clear next steps or solutions." "\x7b\x7bnode_1.output\x7d\x7d" } ]

/-- Template `meeting_notes` from `getTemplateNodes`. -/
def meetingNotesNodes : List WNode :=
  [ { id := "node_1", type := "extractor"
    , config := mkConfig "Extract from meeting transcript: attendees, main topics discussed, decisions made, action items with owners, and deadlines." "" }
  , { id := "node_2", type := "writer"
    , config := mkConfig "Create structured meeting notes with: summary, key decisions, action items table (task, owner, deadline), and next steps." "\x7b\x7bnode_1.output\x7d\x7d" } ]

/-- Template `code_reviewer` from `getTemplateNodes`. -/
def codeReviewerNodes : List WNode :=
  [ { id := "node_1", type := "analyzer"
    , config := mkConfig "Analyze the code for: 1) Potential bugs, 2) Security issues, 3) Performance problems, 4) Code quality and best practices violations." "" }
  , { id := "node_2", type := "writer"
    , config := mkConfig "Generate a detailed code review with specific suggestions, improvement recommendations, and code examples where applicable." "\x7b\x7bnode_1.output\x7d\x7d" } ]

/-- Create-workflow page `getTemplateNodes(template)`: the keyed template
table, `[]` for every unknown key (`templates[template] || []`). -/
def getTemplateNodes (template : String) : List WNode :=
  if template = "email_summarizer" then emailSummarizerNodes
  else if template = "content_generator" then contentGeneratorNodes
  else if template = "data_analyzer" then dataAnalyzerNodes
  else if template = "customer_support" then customerSupportNodes
  else if template = "meeting_notes" then meetingNotesNodes
  else if template = "code_reviewer" then codeReviewerNodes
  else []

/-- Keys present in the template table. -/
def templateKeys : List String :=
  [ "email_summarizer", "content_generator", "data_analyzer"
  , "customer_support", "meeting_notes", "code_reviewer" ]

/-- Checks that every node after `prev` consumes its predecessor:
`config.input` is exactly `\x7b\x7b` ++ predecessor id ++ `.output\x7d\x7d`. -/
def chainRestB : WNode → List WNode → Bool
  | _, [] => true
  | prev, n :: ns =>
    (getField n.config "input" == some ("\x7b\x7b" ++ prev.id ++ ".output\x7d\x7d"))
      && chainRestB n ns

/-- Checks the C7 chain shape: the first node's `config.input` is the empty
string and every later node's `config.input` is the placeholder referencing
the id of the immediately preceding node. -/
def isChainB : List WNode → Bool
  | [] => true
  | first :: rest => (getField first.config "input" == some "") && chainRestB first rest

/-- C7: for every key known to `getTemplateNodes`, the returned node list is
a chain whose first node has empty `config.input` and whose every later node
has `config.input` exactly the placeholder referencing the id of the
immediately preceding node; for every other key the result is the empty
list. -/
theorem spec_c7 (key : String) :
    (key ∈ templateKeys → isChainB (getTemplateNodes key) = true) ∧
    (key ∉ templateKeys → getTemplateNodes key = []) := by
  constructor
  · intro hk
    simp only [templateKeys, List.mem_cons, List.not_mem_nil, or_false] at hk
    rcases hk with rfl | rfl | rfl | rfl | rfl | rfl <;> decide
  · intro hk
    simp only [templateKeys, List.mem_cons, List.not_mem_nil, or_false, not_or] at hk
    obtain ⟨h1, h2, h3, h4, h5, h6⟩ := hk
    simp [getTemplateNodes, h1, h2, h3, h4, h5, h6]

/-- Witness for C7 at the known key `email_summarizer` and the unknown key
`unknown`. -/
theorem spec_c7_witness :
    isChainB (getTemplateNodes "email_summarizer") = true ∧
    getTemplateNodes "unknown" = [] := by
  exact ⟨(spec_c7 "email_summarizer").1 (by decide),
         (spec_c7 "unknown").2 (by decide)⟩

/-- JavaScript `String.prototype.trim`: drops leading and trailing
whitespace of a character list. -/
def trimChars (l : List Char) : List Char :=
  ((l.dropWhile Char.isWhitespace).reverse.dropWhile Char.isWhitespace).reverse

/-- Canned demo result of `generateDemoResult`.  The claims only concern
which table entry is selected, so each canned payload is represented by its
table key (`outputKey`) rather than by its full JSON body. -/
structure DemoResult where
  demo_mode : Bool
  outputKey : String
deriving Repr, DecidableEq

/-- Agent ids keyed in the `generateDemoResult` table. -/
def demoAgentIds : List String :=
  [ "email-summarizer", "content-generator", "data-analyzer"
  , "customer-support", "code-reviewer", "meeting-notes" ]

/-- Demo-mode fallback `generateDemoResult(agentId, input)`: returns the
canned result for a known agent id and a generic success object otherwise
(`results[agentId] || \x7b demo_mode: true, ... \x7d`); the `input` argument
is never read. -/
def generateDemoResult (agentId : String) : DemoResult :=
  if agentId ∈ demoAgentIds then { demo_mode := true, outputKey := agentId }
  else { demo_mode := true, outputKey := "default" }

/-- Result state of the agent page: either the parsed API response body or
a demo fallback result together with its banner message. -/
inductive AgentResult where
  | api (body : String)
  | demo (d : DemoResult) (message : String)
deriving Repr, DecidableEq

/-- Observable client state touched by `handleExecute`: the stored token,
the `result` React state, the navigation target, the alert dialogs shown,
and how many network requests were issued. -/
structure ClientState where
  token : Option String
  result : Option AgentResult
  navigation : Option String
  alerts : List String
  requestsSent : ℕ
deriving Repr, DecidableEq

/-- Outcome of the `fetch` call: a thrown network error, or a response with
an HTTP status and a body. -/
abbrev FetchOutcome := Except String (ℕ × String)

/-- The `AgentInterface.handleExecute` handler: blank input alerts and
returns early; a missing token alerts and navigates to login; a 401
response alerts, clears the token and navigates to login; a 2xx response
stores the parsed body; every other failure (thrown fetch error or non-2xx,
non-401 status, which the code turns into a thrown error caught by the same
try/catch) falls back to the demo result with an API-connection-failed
message. -/
def handleExecute (agentId input : String) (fetch : FetchOutcome)
    (s : ClientState) : ClientState :=
  if trimChars input.data = [] then
    { s with alerts := s.alerts ++ ["Please enter some input text"] }
  else
    let s1 : ClientState := { s with result := none }
    match s1.token with
    | none =>
      { s1 with alerts := s1.alerts ++ ["Not logged in. Please login again."]
              , navigation := some "/auth/login" }
    | some _ =>
      let s2 : ClientState := { s1 with requestsSent := s1.requestsSent + 1 }
      match fetch with
      | Except.error _ =>
        { s2 with result := some (AgentResult.demo (generateDemoResult agentId)
            "API connection failed - showing demo results") }
      | Except.ok (status, body) =>
        if status = 401 then
          { s2 with alerts := s2.alerts ++ ["Session expired. Please login again."]
                  , token := none
                  , navigation := some "/auth/login" }
        else if 200 ≤ status ∧ status < 300 then
          { s2 with result := some (AgentResult.api body) }
        else
          { s2 with result := some (AgentResult.demo (generateDemoResult agentId)
              "API connection failed - showing demo results") }

/-- C10: for every input that is empty or all whitespace, `handleExecute`
only alerts the user: no network request is issued and the token, result
(still `null`) and navigation states are untouched. -/
theorem spec_c10 (agentId input : String) (fetch : FetchOutcome)
    (s : ClientState) (h : input.data.all Char.isWhitespace = true) :
    handleExecute agentId input fetch s =
      { s with alerts := s.alerts ++ ["Please enter some input text"] } := by
  have h1 : input.data.dropWhile Char.isWhitespace = [] :=
    List.dropWhile_eq_nil_iff.mpr (fun x hx => List.all_eq_true.mp h x hx)
  have htrim : trimChars input.data = [] := by simp [trimChars, h1]
  simp [handleExecute, htrim]

/-- Witness for C10 at a whitespace-only input. -/
theorem spec_c10_witness :
    handleExecute "email-summarizer" "  " (Except.ok (200, "x"))
      { token := some "t", result := none, navigation := none
      , alerts := [], requestsSent := 0 } =
      { token := some "t", result := none, navigation := none
      , alerts := ["Please enter some input text"], requestsSent := 0 } :=
  spec_c10 "email-summarizer" "  " (Except.ok (200, "x")) _ (by decide)

/-- C6: whenever the POST /agents/execute response carries HTTP status 401,
the client alerts, removes the stored token, navigates to the login page,
and returns with no result set (the result state stays `null`). -/
theorem spec_c6 (agentId input body : String) (s : ClientState) (t : String)
    (hin : trimChars input.data ≠ [])
    (htok : s.token = some t) :
    handleExecute agentId input (Except.ok (401, body)) s =
      { s with result := none
             , token := none
             , navigation := some "/auth/login"
             , alerts := s.alerts ++ ["Session expired. Please login again."]
             , requestsSent := s.requestsSent + 1 } := by
  cases s
  simp only [ClientState.mk.injEq] at htok ⊢
  simp [handleExecute, hin, htok]

/-- Witness for C6 at a concrete 401 response. -/
theorem spec_c6_witness :
    handleExecute "email-summarizer" "hello" (Except.ok (401, "expired"))
      { token := some "tok", result := none, navigation := none
      , alerts := [], requestsSent := 0 } =
      { token := none, result := none, navigation := some "/auth/login"
      , alerts := ["Session expired. Please login again."], requestsSent := 1 } :=
  spec_c6 "email-summarizer" "hello" "expired" _ "tok" (by decide) rfl

/-- C5 counterexample: on a 500 response to POST /agents/execute (a failure
other than 401) the handler does not surface the error at all — no alert is
shown and the error body is discarded — and instead stores the canned demo
result with the message `API connection failed - showing demo results`. -/
theorem spec_c5_counterexample :
    let s := handleExecute "email-summarizer" "hello"
      (Except.ok (500, "internal error"))
      { token := some "tok", result := none, navigation := none
      , alerts := [], requestsSent := 0 }
    s.result = some (AgentResult.demo { demo_mode := true, outputKey := "email-summarizer" }
      "API connection failed - showing demo results") ∧
    s.alerts = [] := by
  decide

/-- C5 (amended): for every failure of the POST /agents/execute call other
than HTTP 401 — a thrown fetch error or a non-2xx, non-401 status — the
demo-mode recovery logic substitutes the canned demo result, tagged with
the message `API connection failed - showing demo results`, for the error. -/
theorem spec_c5_amended (agentId input : String) (s : ClientState) (t : String)
    (fetch : FetchOutcome)
    (hin : trimChars input.data ≠ [])
    (htok : s.token = some t)
    (hfail : (∃ e, fetch = Except.error e) ∨
      (∃ status body, fetch = Except.ok (status, body) ∧ status ≠ 401 ∧
        ¬ (200 ≤ status ∧ status < 300))) :
    (handleExecute agentId input fetch s).result =
      some (AgentResult.demo (generateDemoResult agentId)
        "API connection failed - showing demo results") := by
  rcases hfail with ⟨e, rfl⟩ | ⟨status, body, rfl, hstat, hok⟩
  · simp [handleExecute, hin, htok]
  · simp [handleExecute, hin, htok, hstat, hok]

/-- Witness for the amended C5 at a concrete 500 response. -/
theorem spec_c5_amended_witness :
    (handleExecute "data-analyzer" "hello" (Except.ok (500, "boom"))
      { token := some "tok", result := none, navigation := none
      , alerts := [], requestsSent := 0 }).result =
      some (AgentResult.demo (generateDemoResult "data-analyzer")
        "API connection failed - showing demo results") :=
  spec_c5_amended "data-analyzer" "hello" _ "tok" (Except.ok (500, "boom"))
    (by decide) rfl (Or.inr ⟨500, "boom", rfl, by decide, by decide⟩)

/-- Tests whether `pat` occurs at the head of the second list. -/
def leadsWith : List Char → List Char → Bool
  | [], _ => true
  | _ :: _, [] => false
  | p :: ps, c :: cs => p == c && leadsWith ps cs

/-- Replaces every occurrence of `pat` by `rep`, scanning left to right
(skipping over inserted replacement text).  The `fuel` argument makes the
recursion structural; it never runs out when it starts at the scanned
list's length, because each step consumes at least one character. -/
def replaceAux (pat rep : List Char) : ℕ → List Char → List Char
  | 0, l => l
  | _ + 1, [] => []
  | fuel + 1, c :: cs =>
    if pat ≠ [] ∧ leadsWith pat (c :: cs) = true then
      rep ++ replaceAux pat rep fuel ((c :: cs).drop pat.length)
    else
      c :: replaceAux pat rep fuel cs

/-- String-level replace-all of `pat` by `rep` in `s`. -/
def replaceAll (s pat rep : String) : String :=
  ⟨replaceAux pat.data rep.data s.data.length s.data⟩

/-- Modelled from the spec: the backend sequential node executor's
placeholder substitution (the executor itself is not among the visible
sources).  Every `\x7b\x7bnode_K.output\x7d\x7d` placeholder whose node id
has a stored textual result is replaced by that result. -/
def resolvePlaceholders (results : List (String × String)) (s : String) : String :=
  results.foldl
    (fun acc kv => replaceAll acc ("\x7b\x7b" ++ kv.1 ++ ".output\x7d\x7d") kv.2) s

/-- Modelled from the spec: a node as the backend executor consumes it, with
a prompt template and an input template. -/
structure ExecNode where
  id : String
  type : String
  prompt : String
  input : String
deriving Repr, DecidableEq

/-- Modelled from the spec: processing one node — resolve the prompt and
input templates against the stored results, invoke the agent behavior named
by the node's type on them, and record the textual result keyed by the
node's id. -/
def runNode (agent : String → String → String → String)
    (results : List (String × String)) (n : ExecNode) : List (String × String) :=
  results ++
    [(n.id, agent n.type (resolvePlaceholders results n.prompt)
        (resolvePlaceholders results n.input))]

/-- Modelled from the spec: the sequential pass over the ordered node list,
starting from no stored results. -/
def runNodes (agent : String → String → String → String)
    (nodes : List ExecNode) : List (String × String) :=
  nodes.foldl (runNode agent) []

/-- C3: in the sequential executor, the node at 0-indexed position `i` is
invoked with its prompt and input resolved against exactly the stored
results of the previously processed nodes (so every placeholder referencing
a previously computed node's output is substituted with that node's stored
textual result), and its textual result is recorded keyed by the node's
id. -/
theorem spec_c3 (agent : String → String → String → String)
    (nodes : List ExecNode) (i : ℕ) (h : i < nodes.length) :
    runNodes agent (nodes.take (i + 1)) =
      runNodes agent (nodes.take i) ++
        [((nodes.get ⟨i, h⟩).id,
          agent (nodes.get ⟨i, h⟩).type
            (resolvePlaceholders (runNodes agent (nodes.take i)) (nodes.get ⟨i, h⟩).prompt)
            (resolvePlaceholders (runNodes agent (nodes.take i)) (nodes.get ⟨i, h⟩).input))] := by
  have htake : nodes.take (i + 1) = nodes.take i ++ [nodes.get ⟨i, h⟩] := by
    rw [List.take_succ]
    congr
    simp [List.getElem?_eq_getElem h]
  rw [runNodes, htake, List.foldl_append]
  rfl

/-- Concrete agent behavior for the C3 witness. -/
def c3Agent (t p i : String) : String :=
  "[" ++ t ++ "|" ++ p ++ "|" ++ i ++ "]"

/-- Concrete two-node chain for the C3 witness. -/
def c3NodesW : List ExecNode :=
  [ { id := "node_1", type := "extractor", prompt := "P1", input := "raw" }
  , { id := "node_2", type := "writer", prompt := "P2"
    , input := "\x7b\x7bnode_1.output\x7d\x7d" } ]

/-- Witness for C3 at the second node of a concrete two-node chain. -/
theorem spec_c3_witness :
    runNodes c3Agent (c3NodesW.take 2) =
      runNodes c3Agent (c3NodesW.take 1) ++
        [("node_2", c3Agent "writer"
          (resolvePlaceholders (runNodes c3Agent (c3NodesW.take 1)) "P2")
          (resolvePlaceholders (runNodes c3Agent (c3NodesW.take 1))
            "\x7b\x7bnode_1.output\x7d\x7d"))] := by
  have h := spec_c3 c3Agent c3NodesW 1 (by decide)
  simpa [c3NodesW] using h

/-- Modelled from the spec: the persisted execution statuses
(pending, running, completed, failed). -/
inductive ExecStatus where
  | pending
  | running
  | completed
  | failed
deriving Repr, DecidableEq

/-- Modelled from the spec: the steps the system takes on a persisted
execution's status — the execution row is created pending, marked running
when the sequential pass starts, and marked completed on success or failed
when any node fails; no other status write exists. -/
inductive ExecStep : ExecStatus → ExecStatus → Prop where
  | start : ExecStep ExecStatus.pending ExecStatus.running
  | complete : ExecStep ExecStatus.running ExecStatus.completed
  | fail : ExecStep ExecStatus.running ExecStatus.failed

/-- Forward position of a status along pending → running → terminal. -/
def statusRank : ExecStatus → ℕ
  | ExecStatus.pending => 0
  | ExecStatus.running => 1
  | ExecStatus.completed => 2
  | ExecStatus.failed => 2

/-- Terminal statuses. -/
def isTerminal : ExecStatus → Bool
  | ExecStatus.completed => true
  | ExecStatus.failed => true
  | _ => false

/-- Modelled from the spec: the statuses one run persists in order, the
final one depending on whether some node failed. -/
def statusTrace (fails : Bool) : List ExecStatus :=
  [ExecStatus.pending, ExecStatus.running,
   if fails then ExecStatus.failed else ExecStatus.completed]

/-- C4: every single status step moves strictly forward from a non-terminal
status; hence along any sequence of steps the status never moves backwards
and a completed or failed status never changes again; and the statuses one
run persists form a chain of allowed steps. -/
theorem spec_c4 :
    (∀ s t : ExecStatus, ExecStep s t →
      statusRank s < statusRank t ∧ isTerminal s = false) ∧
    (∀ s t : ExecStatus, Relation.ReflTransGen ExecStep s t →
      statusRank s ≤ statusRank t ∧ (isTerminal s = true → t = s)) ∧
    (∀ fails : Bool, (statusTrace fails).Chain' ExecStep) := by
  have hstep : ∀ s t : ExecStatus, ExecStep s t →
      statusRank s < statusRank t ∧ isTerminal s = false := by
    intro s t h
    cases h <;> simp [statusRank, isTerminal]
  refine ⟨hstep, ?_, ?_⟩
  · intro s t h
    induction h with
    | refl => exact ⟨le_refl _, fun _ => rfl⟩
    | tail _ hbc ih =>
      refine ⟨le_trans ih.1 (le_of_lt (hstep _ _ hbc).1), ?_⟩
      intro hs
      have hb := ih.2 hs
      rw [hb] at hbc
      have := (hstep _ _ hbc).2
      rw [hs] at this
      exact absurd this (by simp)
  · intro fails
    cases fails <;>
      simp only [statusTrace, if_true, if_false, List.chain'_cons, List.chain'_singleton,
        and_true, Bool.false_eq_true]
    · exact ⟨ExecStep.start, ExecStep.complete⟩
    · exact ⟨ExecStep.start, ExecStep.fail⟩

/-- Witness for C4: a single start step, a full pending-to-failed run, and
the failing run's persisted trace. -/
theorem spec_c4_witness :
    (statusRank ExecStatus.pending < statusRank ExecStatus.running ∧
      isTerminal ExecStatus.pending = false) ∧
    (statusRank ExecStatus.pending ≤ statusRank ExecStatus.failed ∧
      (isTerminal ExecStatus.pending = true → ExecStatus.failed = ExecStatus.pending)) ∧
    (statusTrace true).Chain' ExecStep :=
  ⟨spec_c4.1 _ _ ExecStep.start,
   spec_c4.2.1 _ _
     (Relation.ReflTransGen.tail
       (Relation.ReflTransGen.tail Relation.ReflTransGen.refl ExecStep.start)
       ExecStep.fail),
   spec_c4.2.2 true⟩

end TaskFlow
